import Mathlib

/-!
# Verification of the wasm-bindgen-lite runtime marshalling and instantiation layer

Shallow embedding, in Lean 4, of the runtime code of this repository:

* the chunked/streaming transform (`createChunkTransform` in the generated
  runtime, `src/cli/config.js` / `part_005`): delimiter mode, block-size mode
  and the flush path;
* the call marshaller `callWasm` with its transient and reused buffers;
* the scalar/array codec `scalarSize` / `decodeReturn`;
* the backend selection `instantiateWithBackend` (`src/js/util.js`);
* the idempotent `init` loader (`part_000`);
* the instance registry (`setInstance` / `memoryU8`) and the allocation
  bridge (`alloc` / `free`) of the generated runtime;
* the `getLines` helper of the offset-split example, with the wasm
  `findOffsets` export modelled by the repository's own JavaScript reference
  implementation `jsFindOffsets` from the example's benchmark.

Bytes are modelled as `Nat` (the algorithms compare bytes only for equality
with a configured delimiter value, so no range constraint is needed).
The WebAssembly heap is modelled abstractly: `allocOp` hands out fresh
nonzero addresses and records every allocate/free event, which is what the
leak/reuse claims are about.
-/

namespace WasmBindgenLite

/-! ## Chunk transform (generated `createChunkTransform`)

The generated `transform(chunk, controller)` concatenates the carry buffer
with the incoming chunk, then, in delimiter mode, runs

```
let start = 0;
for (let i = 0; i < input.length; i++) {
  if (input[i] === delimiter) {
    controller.enqueue(await processFn(input.subarray(start, i)));
    start = i + 1;
  }
}
buffer = input.slice(start);
```

`scanDelimAux d cur input` is that loop with `cur = input[start..i]` the
bytes of the segment accumulated so far; it returns the list of emitted
segments together with the new carry. -/

/-- The delimiter-scan loop of the generated `transform`: emitted segments
(before `processFn`) and the new carry, with `cur` the partial segment
accumulated before the remaining bytes. -/
def scanDelimAux (d : Nat) (cur : List Nat) : List Nat → List (List Nat) × List Nat
  | [] => ([], cur)
  | b :: rest =>
    if b = d then
      let (segs, carry) := scanDelimAux d [] rest
      (cur :: segs, carry)
    else
      scanDelimAux d (cur ++ [b]) rest

/-- One delimiter-mode `transform` step on state `carry` with an incoming
chunk: scan `carry ++ chunk` (the `combined` buffer) and apply the
marshalled transform `f` to each emitted segment. -/
def delimTransform (d : Nat) (f : List Nat → α) (carry chunk : List Nat) :
    List α × List Nat :=
  let p := scanDelimAux d [] (carry ++ chunk)
  (p.1.map f, p.2)

/-- Feeding a list of chunks through the delimiter-mode transform,
threading the carry buffer; returns all emitted values in order and the
final carry. -/
def delimChunks (d : Nat) (f : List Nat → α) : List (List Nat) → List Nat →
    List α × List Nat
  | [], carry => ([], carry)
  | c :: cs, carry =>
    let p := delimTransform d f carry c
    let q := delimChunks d f cs p.2
    (p.1 ++ q.1, q.2)

/-- A whole delimiter-mode stream: process every chunk, then the generated
`flush(controller)` emits `processFn(buffer)` exactly when the carry is
non-empty. -/
def delimStream (d : Nat) (f : List Nat → α) (chunks : List (List Nat)) : List α :=
  let p := delimChunks d f chunks []
  p.1 ++ (if p.2 = [] then [] else [f p.2])

/-- Specification-side segmentation (from the spec's words): the
delimiter-separated parts of a byte sequence, one more part than there are
delimiter occurrences, empty parts included. -/
def splitParts (d : Nat) : List Nat → List (List Nat)
  | [] => [[]]
  | b :: rest =>
    if b = d then
      [] :: splitParts d rest
    else
      match splitParts d rest with
      | [] => [[b]]
      | s :: ss => (b :: s) :: ss

/-- Specification-side emitted segments of a whole stream: every
delimiter-separated part, except that a final empty part (a trailing
delimiter with nothing after it) yields no emission. -/
def delimSegmentsSpec (d : Nat) (bs : List Nat) : List (List Nat) :=
  let parts := splitParts d bs
  if parts.getLastD [] = [] then parts.dropLast else parts

/-- Prefix a partial segment onto the first part of a segmentation. -/
def consHead (cur : List Nat) : List (List Nat) → List (List Nat)
  | [] => [cur]
  | p :: ps => (cur ++ p) :: ps

/-! ## Block-size mode of the chunk transform

The `else if (blockSize !== null)` branch of the generated `transform`:

```
const processLen = input.length - (input.length % blockSize);
if (processLen > 0) {
  controller.enqueue(await processFn(input.subarray(0, processLen)));
  buffer = input.slice(processLen);
} else {
  buffer = input;
}
```

so each step emits `floor(len(combined)/blockSize) * blockSize` bytes as a
single marshalled call and retains the remainder as carry. -/

/-- One block-size-mode `transform` step on carry state with an incoming
chunk. -/
def blockTransform (bs : Nat) (f : List Nat → α) (carry chunk : List Nat) :
    List α × List Nat :=
  let input := carry ++ chunk
  let processLen := input.length - input.length % bs
  if processLen > 0 then
    ([f (input.take processLen)], input.drop processLen)
  else
    ([], input)

/-- Feeding a list of chunks through the block-size-mode transform. -/
def blockChunks (bs : Nat) (f : List Nat → α) : List (List Nat) → List Nat →
    List α × List Nat
  | [], carry => ([], carry)
  | c :: cs, carry =>
    let p := blockTransform bs f carry c
    let q := blockChunks bs f cs p.2
    (p.1 ++ q.1, q.2)

/-- A whole block-size-mode stream, including the flush of a non-empty
carry at stream end. -/
def blockStream (bs : Nat) (f : List Nat → α) (chunks : List (List Nat)) : List α :=
  let p := blockChunks bs f chunks []
  p.1 ++ (if p.2 = [] then [] else [f p.2])

/-! ## Call marshaller (generated `callWasm`)

```
function callWasm(abi, input, outLen, reuse) {
  if (!_inst) throw new Error("WASM instance not initialized");
  const view = toBytes(input);
  const len = view.byteLength;
  let inPtr, outPtr;
  if (reuse) {
    if (reuse.in.len < len) {
      if (reuse.in.ptr) free(reuse.in.ptr, reuse.in.len);
      reuse.in.ptr = alloc(len); reuse.in.len = len;
    }
    if (reuse.out.len < outLen) {
      if (reuse.out.ptr) free(reuse.out.ptr, reuse.out.len);
      reuse.out.ptr = alloc(outLen); reuse.out.len = outLen;
    }
    inPtr = reuse.in.ptr; outPtr = reuse.out.ptr;
  } else {
    inPtr = alloc(len); outPtr = alloc(outLen);
  }
  memoryU8().set(view, inPtr);
  const written = _inst.exports[abi](inPtr, len, outPtr, outLen);
  if (written < 0) {
    if (!reuse) { free(inPtr, len); free(outPtr, outLen); }
    throw new Error(abi + " failed: " + written);
  }
  return { inPtr, outPtr, len, outLen, written };
}
```

The linear-memory allocator is modelled abstractly: `allocOp` hands out a
fresh nonzero address and records the (pointer, length) pair in an event
log; `freeOp` records the freed pair. The foreign export is a parameter
`wasmFn` giving, per input byte sequence, the signed return value and the
bytes it writes at the output pointer. -/

/-- A `{ ptr, len }` pair of the generated runtime (one half of a reuse
slot); `ptr = 0` means not yet allocated (JavaScript falsiness of
`reuse.x.ptr`). -/
structure Buf where
  ptr : Nat
  len : Nat
deriving DecidableEq

/-- A `_name_reuse = { in: { ptr, len }, out: { ptr, len } }` slot. -/
structure ReuseSlot where
  inBuf : Buf
  outBuf : Buf
deriving DecidableEq

/-- Abstract state of the module allocator: a fresh-address counter and
the logs of allocate and free events, each an exact (pointer, length)
pair. -/
structure AllocState where
  nextPtr : Nat
  allocs : List (Nat × Nat)
  frees : List (Nat × Nat)
deriving DecidableEq

/-- `alloc(len)`: a fresh nonzero address, with the allocation recorded. -/
def allocOp (len : Nat) (s : AllocState) : Nat × AllocState :=
  (s.nextPtr + 1,
    { nextPtr := s.nextPtr + 1,
      allocs := s.allocs ++ [(s.nextPtr + 1, len)],
      frees := s.frees })

/-- `free(ptr, len)`: the freed pair is recorded. -/
def freeOp (ptr len : Nat) (s : AllocState) : AllocState :=
  { s with frees := s.frees ++ [(ptr, len)] }

/-- The grow-on-demand step for one half of a reuse slot:
`if (reuse.x.len < n) { if (reuse.x.ptr) free(...); reuse.x.ptr = alloc(n); reuse.x.len = n; }`. -/
def growBuf (b : Buf) (n : Nat) (s : AllocState) : Buf × AllocState :=
  if b.len < n then
    let s1 := if b.ptr ≠ 0 then freeOp b.ptr b.len s else s
    let p := allocOp n s1
    (⟨p.1, n⟩, p.2)
  else
    (b, s)

/-- Buffer preparation of `callWasm` in the reuse branch: grow the input
half for `len` bytes, then the output half for `outLen` bytes. -/
def reusePrep (r : ReuseSlot) (len outLen : Nat) (s : AllocState) :
    ReuseSlot × AllocState :=
  let pIn := growBuf r.inBuf len s
  let pOut := growBuf r.outBuf outLen pIn.2
  (⟨pIn.1, pOut.1⟩, pOut.2)

/-- The error thrown by `callWasm` on a negative foreign return:
`new Error(abi + " failed: " + written)`. -/
inductive CallError where
  | foreignCallFailed (abi : String) (code : Int)
deriving DecidableEq

/-- The message text of the thrown error. -/
def CallError.message : CallError → String
  | .foreignCallFailed abi code => abi ++ " failed: " ++ toString code

/-- The foreign error code identified by the error: the magnitude of the
negative return value. -/
def CallError.foreignCode : CallError → Nat
  | .foreignCallFailed _ code => code.natAbs

/-- The `{ inPtr, outPtr, len, outLen, written }` record returned by
`callWasm` on success; `outBytes` carries the bytes the foreign call wrote
at `outPtr` (the linear-memory content the wrapper then reads). -/
structure CallResult where
  inPtr : Nat
  outPtr : Nat
  len : Nat
  outLen : Nat
  written : Nat
  outBytes : List Nat
deriving DecidableEq

/-- `callWasm` without a reuse slot: allocate transient input and output
buffers, invoke the foreign export, and on a negative return free both
buffers — each with the exact pair of its allocation — before failing. -/
def callWasmFresh (wasmFn : List Nat → Int × List Nat) (abi : String)
    (input : List Nat) (outLen : Nat) (s : AllocState) :
    Except CallError CallResult × AllocState :=
  let len := input.length
  let pIn := allocOp len s
  let pOut := allocOp outLen pIn.2
  let written := (wasmFn input).1
  if written < 0 then
    (.error (.foreignCallFailed abi written),
      freeOp pOut.1 outLen (freeOp pIn.1 len pOut.2))
  else
    (.ok ⟨pIn.1, pOut.1, len, outLen, written.toNat, (wasmFn input).2⟩, pOut.2)

/-- `callWasm` with a reuse slot: grow-on-demand preparation, then the
foreign call; on failure the buffers are NOT freed (they are owned by the
slot), and the mutated slot persists either way. -/
def callWasmReuse (wasmFn : List Nat → Int × List Nat) (abi : String)
    (input : List Nat) (outLen : Nat) (r : ReuseSlot) (s : AllocState) :
    Except CallError CallResult × ReuseSlot × AllocState :=
  let len := input.length
  let prep := reusePrep r len outLen s
  let written := (wasmFn input).1
  if written < 0 then
    (.error (.foreignCallFailed abi written), prep.1, prep.2)
  else
    (.ok ⟨prep.1.inBuf.ptr, prep.1.outBuf.ptr, len, outLen, written.toNat,
        (wasmFn input).2⟩,
      prep.1, prep.2)

/-- `callWasm` itself: dispatch on whether a reuse slot was passed. -/
def callWasm (wasmFn : List Nat → Int × List Nat) (abi : String)
    (input : List Nat) (outLen : Nat) (reuse : Option ReuseSlot) (s : AllocState) :
    Except CallError CallResult × Option ReuseSlot × AllocState :=
  match reuse with
  | none =>
    let p := callWasmFresh wasmFn abi input outLen s
    (p.1, none, p.2)
  | some r =>
    let p := callWasmReuse wasmFn abi input outLen r s
    (p.1, some p.2.1, p.2.2)

/-! ## Scalar/array codec (generated `scalarSize` / `decodeReturn`)

`decodeReturn(view, type)` switches on the declared return kind; the
numeric interpretation of the raw little-endian bytes (`DataView.getXxx`)
is abstracted here as a kind-tagged wrapper around the raw bytes, since no
claim concerns the numeric values themselves — only which branch is taken.
The `default` branch of the source returns `null`, modelled as `none`. -/

/-- `scalarSize(type)`: the fixed byte width of a scalar kind, the
1 MiB fixed capacity of the array kinds, and 0 for an unknown kind. -/
def scalarSize (t : String) : Nat :=
  if t = "f64" then 8
  else if t = "f32" then 4
  else if t = "i32" then 4
  else if t = "u32" then 4
  else if t = "i16" then 2
  else if t = "u16" then 2
  else if t = "i8" then 1
  else if t = "u8" then 1
  else if t = "u32_array" then 1024 * 1024
  else if t = "i32_array" then 1024 * 1024
  else if t = "f32_array" then 1024 * 1024
  else 0

/-- A decoded return value, kind-tagged, carrying the raw bytes of the
written output region. -/
inductive Decoded where
  | f32v (raw : List Nat)
  | f64v (raw : List Nat)
  | i32v (raw : List Nat)
  | u32v (raw : List Nat)
  | i16v (raw : List Nat)
  | u16v (raw : List Nat)
  | i8v (raw : List Nat)
  | u8v (raw : List Nat)
  | u32arr (raw : List Nat)
  | i32arr (raw : List Nat)
  | f32arr (raw : List Nat)
deriving DecidableEq

/-- `decodeReturn(view, type)`: the switch of the generated codec; an
unrecognized kind falls to `default: return null`. -/
def decodeReturn (view : List Nat) (t : String) : Option Decoded :=
  if t = "f32" then some (.f32v view)
  else if t = "f64" then some (.f64v view)
  else if t = "i32" then some (.i32v view)
  else if t = "u32" then some (.u32v view)
  else if t = "i16" then some (.i16v view)
  else if t = "u16" then some (.u16v view)
  else if t = "i8" then some (.i8v view)
  else if t = "u8" then some (.u8v view)
  else if t = "u32_array" then some (.u32arr view)
  else if t = "i32_array" then some (.i32arr view)
  else if t = "f32_array" then some (.f32arr view)
  else none

/-- The return kinds the codec recognizes. -/
def knownKinds : List String :=
  ["f32", "f64", "i32", "u32", "i16", "u16", "i8", "u8",
   "u32_array", "i32_array", "f32_array"]

/-- A generated non-bytes wrapper without buffer reuse:
`outLen = (scalarSize('T') || 4)`, call `callWasm`, build the
`DataView(memoryU8().buffer, outPtr, written)` over the written bytes,
decode, free both transient buffers, return the decoded value. -/
def wrappedScalarCall (wasmFn : List Nat → Int × List Nat) (abi retType : String)
    (input : List Nat) (s : AllocState) :
    Except CallError (Option Decoded) × AllocState :=
  let outLen := if scalarSize retType = 0 then 4 else scalarSize retType
  let p := callWasmFresh wasmFn abi input outLen s
  match p with
  | (.error e, s2) => (.error e, s2)
  | (.ok res, s2) =>
    let result := decodeReturn (res.outBytes.take res.written) retType
    (.ok result, freeOp res.outPtr res.outLen (freeOp res.inPtr res.len s2))

/-! ## Backend selection (`src/js/util.js`, `instantiateWithBackend`)

The asynchronous byte getters and `WebAssembly.instantiate` are modelled
as `Except` values/functions: an `error` is a rejected promise (fetch
failure or instantiation failure). The `try { ... } catch { ... }` of the
auto path covers both the byte fetch and the instantiation, exactly as in
the source. -/

/-- The SIMD attempt: fetch the SIMD bytes, instantiate them, tag the
result `"wasm-simd"`. -/
def simdAttempt (getSimdBytes : Except ε (List Nat))
    (instantiate : List Nat → Except ε ι) : Except ε (ι × String) := do
  let b ← getSimdBytes
  let i ← instantiate b
  pure (i, "wasm-simd")

/-- The baseline attempt: fetch the baseline bytes, instantiate them, tag
the result `"wasm"`. -/
def baseAttempt (getBaseBytes : Except ε (List Nat))
    (instantiate : List Nat → Except ε ι) : Except ε (ι × String) := do
  let b ← getBaseBytes
  let i ← instantiate b
  pure (i, "wasm")

/-- `instantiateWithBackend`: `"base"` takes the baseline path, `"simd"`
the SIMD path, and ANY other value — `"auto"` included — tries SIMD and
falls back to baseline on any failure. -/
def instantiateWithBackend (getSimdBytes getBaseBytes : Except ε (List Nat))
    (instantiate : List Nat → Except ε ι) (backend : String) :
    Except ε (ι × String) :=
  if backend = "base" then
    baseAttempt getBaseBytes instantiate
  else if backend = "simd" then
    simdAttempt getSimdBytes instantiate
  else
    match simdAttempt getSimdBytes instantiate with
    | .ok r => .ok r
    | .error _ => baseAttempt getBaseBytes instantiate

/-- `true` exactly on a fulfilled (`ok`) result. -/
def exceptOk : Except ε α → Bool
  | .ok _ => true
  | .error _ => false

/-! ## Idempotent loader (`part_000`, `init`)

```
let _ready = null;
let _backend = null;
export function init(imports = {}, opts = {}) {
  const backend = opts.backend || 'auto';
  if (_ready && _backend === backend) return _ready;
  _backend = backend;
  return (_ready = (async () => { ... instantiateWithBackend ... })());
}
```

The pending promise is modelled as an identifier (`nextId` counter); each
creation of a new promise body starts exactly one instantiation, counted
in `count`. -/

/-- `opts.backend || 'auto'` — JavaScript falsiness: a missing or empty
backend string resolves to `"auto"`. -/
def resolveBackend : Option String → String
  | none => "auto"
  | some b => if b = "" then "auto" else b

/-- The loader's module-level state. -/
structure InitState where
  ready : Option Nat
  backendSel : Option String
  count : Nat
  nextId : Nat
deriving DecidableEq

/-- State before the first `init` call. -/
def initialInitState : InitState := ⟨none, none, 0, 0⟩

/-- `init(imports, opts)`: return the cached promise when one exists and
the backend selection is unchanged; otherwise start a new initialization
(one instantiation) and cache it. -/
def init (opts : Option String) (s : InitState) : Nat × InitState :=
  let backend := resolveBackend opts
  match s.ready with
  | some p =>
    if s.backendSel = some backend then
      (p, s)
    else
      (s.nextId, ⟨some s.nextId, some backend, s.count + 1, s.nextId + 1⟩)
  | none =>
    (s.nextId, ⟨some s.nextId, some backend, s.count + 1, s.nextId + 1⟩)

/-! ## Allocation bridge and instance registry (generated `core.js`)

```
export function alloc(len) { return _inst.exports.alloc_bytes(len) >>> 0; }
let _inst = null; let _memU8 = null;
function refreshViews() { _memU8 = new Uint8Array(_inst.exports.memory.buffer); }
export function setInstance(instance) { _inst = instance; refreshViews(); }
export function memoryU8() {
  if (_memU8 && _memU8.buffer !== _inst.exports.memory.buffer) refreshViews();
  return _memU8;
}
```

The foreign `alloc_bytes` export is a parameter returning either a value
(`ok`) or a trap (`error`); `>>> 0` is the JavaScript unsigned-32-bit
conversion. Memory regions are identified by a buffer identity `bufId`
(JavaScript object identity of `memory.buffer`). -/

/-- The generated `alloc(len)`: call the foreign allocator and apply
`>>> 0`; a trap propagates, any returned value — 0 included — is passed
through. -/
def alloc (foreignAlloc : Nat → Except ε Nat) (len : Nat) : Except ε Nat :=
  match foreignAlloc len with
  | .error e => .error e
  | .ok v => .ok (v % 2 ^ 32)

/-- A module instance, identified by the identity of its current memory
buffer. -/
structure WasmInstance where
  bufId : Nat
deriving DecidableEq

/-- A `Uint8Array` view, identified by the identity of its backing
buffer. -/
structure MemView where
  bufId : Nat
deriving DecidableEq

/-- The registry's module-level state (`_inst`, `_memU8`), both `null`
before `setInstance`. -/
structure RegState where
  inst : Option WasmInstance
  memU8 : Option MemView
deriving DecidableEq

/-- State before `setInstance` has ever been called. -/
def initialRegState : RegState := ⟨none, none⟩

/-- `setInstance(instance)`: publish the handle and recompute the view. -/
def setInstance (i : WasmInstance) (_ : RegState) : RegState :=
  ⟨some i, some ⟨i.bufId⟩⟩

/-- A JavaScript runtime error (property access on `null`). -/
inductive JsError where
  | nullDeref
deriving DecidableEq

/-- The generated `memoryU8()`: when `_memU8` is null the guard
`_memU8 && ...` short-circuits and `_inst` is never dereferenced — the
null view is returned; otherwise the freshness check against
`_inst.exports.memory.buffer` runs (dereferencing a null `_inst` would
throw) and the view is refreshed if stale. -/
def memoryU8 (s : RegState) : Except JsError (Option MemView × RegState) :=
  match s.memU8 with
  | none => .ok (none, s)
  | some v =>
    match s.inst with
    | none => .error .nullDeref
    | some i =>
      if v.bufId ≠ i.bufId then
        .ok (some ⟨i.bufId⟩, ⟨some i, some ⟨i.bufId⟩⟩)
      else
        .ok (some v, s)

/-! ## `getLines` (offset-split example, `part_008`) and the `findOffsets`
reference implementation

The wasm export `findOffsets` is compiled Rust whose source is not part of
the repository snapshot; the example's benchmark ships `jsFindOffsets`, a
JavaScript reference implementation documented to compute the same offsets:
the index of every `\n` (10) and of every `\r` (13), with the `\n` of a
`\r\n` pair skipped. -/

/-- The repository's `jsFindOffsets` reference implementation (offset-split
benchmark), used here as the model of the wasm `findOffsets` export: `i` is
the index of the first byte of the remaining list. -/
def jsFindOffsetsAux : List Nat → Nat → List Nat
  | [], _ => []
  | 10 :: rest, i => i :: jsFindOffsetsAux rest (i + 1)
  | 13 :: 10 :: rest, i => i :: jsFindOffsetsAux rest (i + 2)
  | 13 :: rest, i => i :: jsFindOffsetsAux rest (i + 1)
  | _ :: rest, i => jsFindOffsetsAux rest (i + 1)

/-- Offsets of the line-break bytes of the input (`\n`, `\r`, with `\r\n`
counted once, at the `\r`). -/
def jsFindOffsets (input : List Nat) : List Nat :=
  jsFindOffsetsAux input 0

/-- The segment loop of `getLines`: for each offset push
`input.subarray(lastPos, offset)`, then advance past the delimiter — two
bytes for a `\r\n` pair, one otherwise — and finally push the remainder if
any bytes follow the last delimiter. Lines are returned as byte segments
(the example decodes each segment as UTF-8, which is injective on the byte
level and not modelled here). -/
def getLinesAux (input : List Nat) : Nat → List Nat → List (List Nat)
  | lastPos, [] =>
    if lastPos < input.length then [input.drop lastPos] else []
  | lastPos, off :: rest =>
    let line := (input.take off).drop lastPos
    let isCRLF := input.getD off 0 = 13 ∧ input.getD (off + 1) 0 = 10
    line :: getLinesAux input (off + (if isCRLF then 2 else 1)) rest

/-- `getLines` of the offset-split example: split a buffer into lines at
the wasm-found offsets, `\n`/`\r`/`\r\n`-aware. -/
def getLines (input : List Nat) : List (List Nat) :=
  getLinesAux input 0 (jsFindOffsets input)

/-- The bytes of `"line1\nline2\r\nline3\rlast"`. -/
def crlfSample : List Nat :=
  [108, 105, 110, 101, 49, 10,
   108, 105, 110, 101, 50, 13, 10,
   108, 105, 110, 101, 51, 13,
   108, 97, 115, 116]

def line1B : List Nat := [108, 105, 110, 101, 49]

def line2B : List Nat := [108, 105, 110, 101, 50]

def line3B : List Nat := [108, 105, 110, 101, 51]

def lastB : List Nat := [108, 97, 115, 116]

/-! ## Theorems -/

theorem splitParts_ne_nil (d : Nat) (bs : List Nat) : splitParts d bs ≠ [] := by
  cases bs with
  | nil => simp [splitParts]
  | cons b rest =>
    by_cases h : b = d
    · simp [splitParts, h]
    · simp only [splitParts, if_neg h]
      cases splitParts d rest with
      | nil => simp
      | cons s ss => simp

/-- The scan loop computes exactly the delimiter-separated parts: the
emitted segments followed by the carry are the parts of the input, with
`cur` glued onto the first part. -/
theorem scanDelimAux_eq_splitParts (d : Nat) (bs : List Nat) :
    ∀ cur : List Nat,
      (scanDelimAux d cur bs).1 ++ [(scanDelimAux d cur bs).2] =
        consHead cur (splitParts d bs) := by
  induction bs with
  | nil => intro cur; simp [scanDelimAux, splitParts, consHead]
  | cons b rest ih =>
    intro cur
    by_cases h : b = d
    · simp only [scanDelimAux, if_pos h, splitParts]
      have := ih []
      cases hrest : splitParts d rest with
      | nil => exact absurd hrest (splitParts_ne_nil d rest)
      | cons s ss =>
        simp only [hrest, consHead] at this ⊢
        simp only [List.cons_append, List.nil_append] at this ⊢
        rw [this]
        simp
    · simp only [scanDelimAux, if_neg h, splitParts]
      have := ih (cur ++ [b])
      cases hrest : splitParts d rest with
      | nil => exact absurd hrest (splitParts_ne_nil d rest)
      | cons s ss =>
        simp only [hrest, consHead] at this ⊢
        rw [this]
        simp

/-- Scanning a concatenation: scan the first part, then scan the second
part starting from the carry left by the first. -/
theorem scanDelimAux_append (d : Nat) (xs : List Nat) :
    ∀ (cur ys : List Nat),
      scanDelimAux d cur (xs ++ ys) =
        ((scanDelimAux d cur xs).1 ++ (scanDelimAux d (scanDelimAux d cur xs).2 ys).1,
          (scanDelimAux d (scanDelimAux d cur xs).2 ys).2) := by
  induction xs with
  | nil => intro cur ys; simp [scanDelimAux]
  | cons b rest ih =>
    intro cur ys
    by_cases h : b = d
    · simp only [List.cons_append, scanDelimAux, if_pos h, List.append_eq, ih []]
    · simp only [List.cons_append, scanDelimAux, if_neg h, List.append_eq,
        ih (cur ++ [b])]

/-- The carry produced by the scan never contains the delimiter, provided
the partial segment fed in does not. -/
theorem scanDelimAux_carry_no_delim (d : Nat) (bs : List Nat) :
    ∀ cur : List Nat, d ∉ cur → d ∉ (scanDelimAux d cur bs).2 := by
  induction bs with
  | nil => intro cur hcur; simpa [scanDelimAux] using hcur
  | cons b rest ih =>
    intro cur hcur
    by_cases h : b = d
    · simp only [scanDelimAux, if_pos h]
      exact ih [] (by simp)
    · simp only [scanDelimAux, if_neg h]
      exact ih (cur ++ [b]) (by
        simp only [List.mem_append, List.mem_singleton]
        rintro (hc | hb)
        · exact hcur hc
        · exact h hb.symm)

/-- Scanning `carry ++ chunk` from an empty partial segment is the same as
scanning `chunk` with `carry` as the partial segment, when the carry holds
no delimiter. -/
theorem scanDelimAux_carry_absorb (d : Nat) (carry : List Nat) :
    ∀ (cur chunk : List Nat), d ∉ carry →
      scanDelimAux d cur (carry ++ chunk) = scanDelimAux d (cur ++ carry) chunk := by
  induction carry with
  | nil => intro cur chunk _; simp
  | cons c cr ih =>
    intro cur chunk hnd
    have hc : c ≠ d := fun he => hnd (by simp [he])
    simp only [List.cons_append, scanDelimAux, if_neg hc, List.append_eq]
    rw [ih (cur ++ [c]) chunk (fun hm => hnd (by simp [hm]))]
    simp

/-- Running the chunk loop from a delimiter-free carry equals scanning the
whole remaining byte sequence with that carry as the partial segment. -/
theorem delimChunks_eq_scan (d : Nat) (f : List Nat → α) (chunks : List (List Nat)) :
    ∀ carry : List Nat, d ∉ carry →
      delimChunks d f chunks carry =
        ((scanDelimAux d carry chunks.flatten).1.map f,
          (scanDelimAux d carry chunks.flatten).2) := by
  induction chunks with
  | nil => intro carry _; simp [delimChunks, scanDelimAux]
  | cons c cs ih =>
    intro carry hnd
    simp only [delimChunks, delimTransform, List.flatten_cons]
    rw [scanDelimAux_carry_absorb d carry [] c hnd]
    simp only [List.nil_append]
    rw [ih (scanDelimAux d carry c).2
      (scanDelimAux_carry_no_delim d c carry hnd)]
    rw [scanDelimAux_append d c carry cs.flatten]
    simp [List.map_append]

theorem consHead_nil_left (ps : List (List Nat)) (h : ps ≠ []) :
    consHead [] ps = ps := by
  cases ps with
  | nil => exact absurd rfl h
  | cons p pt => simp [consHead]

/-- Characterization of a whole delimiter-mode stream: the emissions are
the transform of the delimiter-separated segments of the concatenated
input, and the carry before flush is the remainder after the last
delimiter. -/
theorem delimStream_characterization (d : Nat) (f : List Nat → α)
    (chunks : List (List Nat)) :
    delimStream d f chunks = (delimSegmentsSpec d chunks.flatten).map f ∧
      (delimChunks d f chunks []).2 = (splitParts d chunks.flatten).getLastD [] := by
  have hrun := delimChunks_eq_scan d f chunks [] (by simp)
  have hparts := scanDelimAux_eq_splitParts d chunks.flatten []
  rw [consHead_nil_left _ (splitParts_ne_nil d chunks.flatten)] at hparts
  constructor
  · rw [delimStream, hrun]
    simp only [delimSegmentsSpec]
    cases hscan : scanDelimAux d [] chunks.flatten with
    | mk segs carry =>
      rw [hscan] at hparts
      simp only at hparts
      by_cases hc : carry = []
      · subst hc
        rw [← hparts]
        simp [List.getLastD_concat, List.dropLast_concat]
      · rw [← hparts]
        simp [List.getLastD_concat, List.dropLast_concat, hc, List.map_append]
  · rw [hrun]
    cases hscan : scanDelimAux d [] chunks.flatten with
    | mk segs carry =>
      rw [hscan] at hparts
      simp only at hparts
      rw [← hparts]
      simp [List.getLastD_concat]

/-- **C1.** For every delimiter value, every marshalled transform and every
partition of the input into chunks, the delimiter-mode stream emits exactly
the transform results of the delimiter-separated segments of the whole
concatenated byte sequence, in order and independently of where the chunk
boundaries fall; the bytes after the last delimiter are retained as the
carry and emitted exactly once by the flush path (they are the final
segment of the emission list), and a trailing delimiter with no following
bytes leaves an empty carry, so nothing further is emitted at flush. -/
theorem delimStream_eq_spec (d : Nat) (f : List Nat → α) (chunks : List (List Nat)) :
    delimStream d f chunks = (delimSegmentsSpec d chunks.flatten).map f ∧
      (delimChunks d f chunks []).2 = (splitParts d chunks.flatten).getLastD [] :=
  delimStream_characterization d f chunks

theorem growBuf_le (b : Buf) (n : Nat) (s : AllocState) (h : n ≤ b.len) :
    growBuf b n s = (b, s) := by
  simp [growBuf, Nat.not_lt.mpr h]

theorem growBuf_lt (b : Buf) (n : Nat) (s : AllocState) (h : b.len < n) :
    growBuf b n s =
      (⟨s.nextPtr + 1, n⟩,
        { nextPtr := s.nextPtr + 1,
          allocs := s.allocs ++ [(s.nextPtr + 1, n)],
          frees := s.frees ++ (if b.ptr ≠ 0 then [(b.ptr, b.len)] else []) }) := by
  by_cases hp : b.ptr ≠ 0
  · simp [growBuf, h, hp, allocOp, freeOp]
  · simp [growBuf, h, hp, allocOp, freeOp]

theorem callWasmReuse_slot (wasmFn : List Nat → Int × List Nat)
    (abi : String) (input : List Nat) (outLen : Nat) (r : ReuseSlot)
    (s : AllocState) :
    (callWasmReuse wasmFn abi input outLen r s).2.1 =
      (reusePrep r input.length outLen s).1 := by
  rw [callWasmReuse]
  by_cases hw : (wasmFn input).1 < 0 <;> simp [hw]

theorem callWasmReuse_state (wasmFn : List Nat → Int × List Nat)
    (abi : String) (input : List Nat) (outLen : Nat) (r : ReuseSlot)
    (s : AllocState) :
    (callWasmReuse wasmFn abi input outLen r s).2.2 =
      (reusePrep r input.length outLen s).2 := by
  rw [callWasmReuse]
  by_cases hw : (wasmFn input).1 < 0 <;> simp [hw]

/-- **C4.** For a wrapped function configured with buffer reuse (bytes
return, default output size `max(len, 4)`), invoking it first with a
nonempty input of length L1 and then with one of length L2: if L2 ≤ L1
nothing is reallocated — the slot and the whole allocator state are
unchanged by the second call; if L2 > L1 the old input buffer is freed
with the exact pair of its allocation and a new buffer of length L2 is
allocated and recorded in the slot. The slot's recorded lengths always
equal the true allocated capacities (the recorded pair is in the alloc log
and not in the free log), never shrink, and the old buffer is freed only
as part of growth. -/
theorem reuse_growth (wasmFn : List Nat → Int × List Nat) (abi : String)
    (in1 in2 : List Nat) (e1 e2 : Except CallError CallResult)
    (r1 r2 : ReuseSlot) (s1 s2 : AllocState)
    (h1 : 0 < in1.length)
    (hc1 : callWasmReuse wasmFn abi in1 (max in1.length 4) ⟨⟨0, 0⟩, ⟨0, 0⟩⟩
        ⟨0, [], []⟩ = (e1, r1, s1))
    (hc2 : callWasmReuse wasmFn abi in2 (max in2.length 4) r1 s1 = (e2, r2, s2)) :
    r1 = ⟨⟨1, in1.length⟩, ⟨2, max in1.length 4⟩⟩ ∧
    s1.allocs = [(1, in1.length), (2, max in1.length 4)] ∧ s1.frees = [] ∧
    (in2.length ≤ in1.length → r2 = r1 ∧ s2 = s1) ∧
    (in1.length < in2.length →
      r2.inBuf = ⟨3, in2.length⟩ ∧
      (1, in1.length) ∈ s2.frees ∧ (3, in2.length) ∈ s2.allocs ∧
      (3, in2.length) ∉ s2.frees) ∧
    r2.inBuf.len = max in1.length in2.length ∧
    r2.outBuf.len = max (max in1.length 4) (max in2.length 4) ∧
    (r2.inBuf.ptr, r2.inBuf.len) ∈ s2.allocs ∧
    (r2.inBuf.ptr, r2.inBuf.len) ∉ s2.frees := by
  have hm1 : (0 : Nat) < max in1.length 4 :=
    Nat.lt_of_lt_of_le (by norm_num) (Nat.le_max_right _ _)
  have hprep1 : reusePrep ⟨⟨0, 0⟩, ⟨0, 0⟩⟩ in1.length (max in1.length 4) ⟨0, [], []⟩ =
      (⟨⟨1, in1.length⟩, ⟨2, max in1.length 4⟩⟩,
        ⟨2, [(1, in1.length), (2, max in1.length 4)], []⟩) := by
    rw [reusePrep]
    rw [growBuf_lt ⟨0, 0⟩ in1.length _ h1]
    rw [growBuf_lt ⟨0, 0⟩ (max in1.length 4) _ hm1]
    simp
  have hr1 : r1 = ⟨⟨1, in1.length⟩, ⟨2, max in1.length 4⟩⟩ := by
    have h := callWasmReuse_slot wasmFn abi in1 (max in1.length 4)
      ⟨⟨0, 0⟩, ⟨0, 0⟩⟩ ⟨0, [], []⟩
    rw [hc1, hprep1] at h
    simpa using h
  have hs1 : s1 = ⟨2, [(1, in1.length), (2, max in1.length 4)], []⟩ := by
    have h := callWasmReuse_state wasmFn abi in1 (max in1.length 4)
      ⟨⟨0, 0⟩, ⟨0, 0⟩⟩ ⟨0, [], []⟩
    rw [hc1, hprep1] at h
    simpa using h
  subst hr1 hs1
  have hslot2 := callWasmReuse_slot wasmFn abi in2 (max in2.length 4)
    ⟨⟨1, in1.length⟩, ⟨2, max in1.length 4⟩⟩
    ⟨2, [(1, in1.length), (2, max in1.length 4)], []⟩
  have hstate2 := callWasmReuse_state wasmFn abi in2 (max in2.length 4)
    ⟨⟨1, in1.length⟩, ⟨2, max in1.length 4⟩⟩
    ⟨2, [(1, in1.length), (2, max in1.length 4)], []⟩
  rw [hc2] at hslot2 hstate2
  by_cases hle : in2.length ≤ in1.length
  · have hout : max in2.length 4 ≤ (Buf.mk 2 (max in1.length 4)).len := by
      simp
      omega
    have hprep2 : reusePrep ⟨⟨1, in1.length⟩, ⟨2, max in1.length 4⟩⟩ in2.length
        (max in2.length 4) ⟨2, [(1, in1.length), (2, max in1.length 4)], []⟩ =
        (⟨⟨1, in1.length⟩, ⟨2, max in1.length 4⟩⟩,
          ⟨2, [(1, in1.length), (2, max in1.length 4)], []⟩) := by
      rw [reusePrep]
      rw [growBuf_le ⟨1, in1.length⟩ in2.length _ hle]
      rw [growBuf_le ⟨2, max in1.length 4⟩ (max in2.length 4) _ hout]
    rw [hprep2] at hslot2 hstate2
    simp only [] at hslot2 hstate2
    have hr2 : r2 = ⟨⟨1, in1.length⟩, ⟨2, max in1.length 4⟩⟩ := hslot2
    have hs2 : s2 = ⟨2, [(1, in1.length), (2, max in1.length 4)], []⟩ := hstate2
    subst hr2 hs2
    refine ⟨rfl, rfl, rfl, fun _ => ⟨rfl, rfl⟩, fun hlt => absurd hlt (by omega),
      ?_, ?_, ?_, ?_⟩
    · simp [Nat.max_eq_left hle]
    · simp
      omega
    · simp
    · simp
  · push_neg at hle
    have hgrowIn : (Buf.mk 1 in1.length).len < in2.length := hle
    have hprep2a : growBuf ⟨1, in1.length⟩ in2.length
        ⟨2, [(1, in1.length), (2, max in1.length 4)], []⟩ =
        (⟨3, in2.length⟩,
          ⟨3, [(1, in1.length), (2, max in1.length 4), (3, in2.length)],
            [(1, in1.length)]⟩) := by
      rw [growBuf_lt _ _ _ hgrowIn]
      simp
    by_cases hole : max in2.length 4 ≤ max in1.length 4
    · have hprep2 : reusePrep ⟨⟨1, in1.length⟩, ⟨2, max in1.length 4⟩⟩ in2.length
          (max in2.length 4) ⟨2, [(1, in1.length), (2, max in1.length 4)], []⟩ =
          (⟨⟨3, in2.length⟩, ⟨2, max in1.length 4⟩⟩,
            ⟨3, [(1, in1.length), (2, max in1.length 4), (3, in2.length)],
              [(1, in1.length)]⟩) := by
        rw [reusePrep, hprep2a]
        rw [growBuf_le ⟨2, max in1.length 4⟩ (max in2.length 4) _ (by simpa using hole)]
      rw [hprep2] at hslot2 hstate2
      have hr2 : r2 = ⟨⟨3, in2.length⟩, ⟨2, max in1.length 4⟩⟩ := hslot2
      have hs2 : s2 = ⟨3, [(1, in1.length), (2, max in1.length 4), (3, in2.length)],
          [(1, in1.length)]⟩ := hstate2
      subst hr2 hs2
      refine ⟨rfl, rfl, rfl, fun hle2 => absurd hle2 (by omega),
        fun _ => ⟨rfl, by simp, by simp, by simp⟩, ?_, ?_, ?_, ?_⟩
      · simp
        omega
      · simp
        omega
      · simp
      · simp
    · push_neg at hole
      have hprep2 : reusePrep ⟨⟨1, in1.length⟩, ⟨2, max in1.length 4⟩⟩ in2.length
          (max in2.length 4) ⟨2, [(1, in1.length), (2, max in1.length 4)], []⟩ =
          (⟨⟨3, in2.length⟩, ⟨4, max in2.length 4⟩⟩,
            ⟨4, [(1, in1.length), (2, max in1.length 4), (3, in2.length),
                (4, max in2.length 4)],
              [(1, in1.length), (2, max in1.length 4)]⟩) := by
        rw [reusePrep, hprep2a]
        rw [growBuf_lt ⟨2, max in1.length 4⟩ (max in2.length 4) _ (by simpa using hole)]
        simp
      rw [hprep2] at hslot2 hstate2
      have hr2 : r2 = ⟨⟨3, in2.length⟩, ⟨4, max in2.length 4⟩⟩ := hslot2
      have hs2 : s2 = ⟨4, [(1, in1.length), (2, max in1.length 4), (3, in2.length),
          (4, max in2.length 4)],
          [(1, in1.length), (2, max in1.length 4)]⟩ := hstate2
      subst hr2 hs2
      refine ⟨rfl, rfl, rfl, fun hle2 => absurd hle2 (by omega),
        fun _ => ⟨rfl, by simp, by simp, by simp⟩, ?_, ?_, ?_, ?_⟩
      · simp
        omega
      · simp
        omega
      · simp
      · simp

/-- **C2.** For every wrapped call whose foreign export returns a negative
value, `callWasm` fails with the error `abi + " failed: " + written`
carrying the raw negative return, whose magnitude is the foreign error code
(so a return of -1 identifies code 1); without a reuse slot both transient
buffers are freed with the exact pointer/length pairs of their allocations
before the failure is signalled — the free log grows by exactly the two
pairs the alloc log grew by — and with a reuse slot the failure branch
frees nothing: slot and state are exactly those produced by the
grow-on-demand preparation. -/
theorem callWasm_failure (wasmFn : List Nat → Int × List Nat) (abi : String)
    (input : List Nat) (outLen : Nat) (r : ReuseSlot) (s : AllocState)
    (hneg : (wasmFn input).1 < 0) :
    (callWasmFresh wasmFn abi input outLen s =
      (.error (.foreignCallFailed abi (wasmFn input).1),
        { nextPtr := s.nextPtr + 2,
          allocs := s.allocs ++ [(s.nextPtr + 1, input.length), (s.nextPtr + 2, outLen)],
          frees := s.frees ++ [(s.nextPtr + 1, input.length), (s.nextPtr + 2, outLen)] })) ∧
    (callWasmReuse wasmFn abi input outLen r s =
      (.error (.foreignCallFailed abi (wasmFn input).1),
        (reusePrep r input.length outLen s).1,
        (reusePrep r input.length outLen s).2)) ∧
    ((wasmFn input).1 = -1 →
      (CallError.foreignCallFailed abi (wasmFn input).1).foreignCode = 1) := by
  refine ⟨?_, ?_, ?_⟩
  · simp [callWasmFresh, allocOp, freeOp, hneg]
  · simp [callWasmReuse, hneg]
  · intro h
    rw [h]
    simp [CallError.foreignCode]

/-- **C2, witness.** The failure path evaluated at a foreign function
returning -1, input `[7]`, output capacity 4: the two transient buffers
(1, 1) and (2, 4) are allocated and then freed, and the call fails with
the error carrying -1. -/
theorem callWasm_failure_witness :
    ((fun _ : List Nat => ((-1 : Int), ([] : List Nat))) [7]).1 < 0 ∧
      callWasmFresh (fun _ : List Nat => ((-1 : Int), ([] : List Nat))) "f" [7] 4
          ⟨0, [], []⟩ =
        (.error (.foreignCallFailed "f" (-1)),
          ⟨2, [(1, 1), (2, 4)], [(1, 1), (2, 4)]⟩) := by
  refine ⟨by decide, ?_⟩
  exact (callWasm_failure (fun _ : List Nat => ((-1 : Int), ([] : List Nat))) "f"
    [7] 4 ⟨⟨0, 0⟩, ⟨0, 0⟩⟩ ⟨0, [], []⟩ (by decide)).1

/-- **C4, witness.** The reuse behaviour evaluated concretely: first call
with 5 input bytes (slot grows to capacities 5 and 5), second call with 1
byte (L2 ≤ L1): slot and allocator state unchanged — no reallocation. -/
theorem reuse_growth_witness :
    (0 : Nat) < ([1, 2, 3, 4, 5] : List Nat).length ∧
      callWasmReuse (fun l : List Nat => ((l.length : Int), ([] : List Nat))) "f"
          [1, 2, 3, 4, 5] (max ([1, 2, 3, 4, 5] : List Nat).length 4)
          ⟨⟨0, 0⟩, ⟨0, 0⟩⟩ ⟨0, [], []⟩ =
        (.ok ⟨1, 2, 5, 5, 5, []⟩, ⟨⟨1, 5⟩, ⟨2, 5⟩⟩, ⟨2, [(1, 5), (2, 5)], []⟩) ∧
      callWasmReuse (fun l : List Nat => ((l.length : Int), ([] : List Nat))) "f"
          [6] (max ([6] : List Nat).length 4)
          ⟨⟨1, 5⟩, ⟨2, 5⟩⟩ ⟨2, [(1, 5), (2, 5)], []⟩ =
        (.ok ⟨1, 2, 1, 4, 1, []⟩, ⟨⟨1, 5⟩, ⟨2, 5⟩⟩, ⟨2, [(1, 5), (2, 5)], []⟩) ∧
      (⟨⟨1, 5⟩, ⟨2, 5⟩⟩ : ReuseSlot) = ⟨⟨1, 5⟩, ⟨2, 5⟩⟩ ∧
      (⟨2, [(1, 5), (2, 5)], []⟩ : AllocState) = ⟨2, [(1, 5), (2, 5)], []⟩ := by
  have hc1 : callWasmReuse (fun l : List Nat => ((l.length : Int), ([] : List Nat)))
      "f" [1, 2, 3, 4, 5] (max ([1, 2, 3, 4, 5] : List Nat).length 4)
      ⟨⟨0, 0⟩, ⟨0, 0⟩⟩ ⟨0, [], []⟩ =
      (.ok ⟨1, 2, 5, 5, 5, []⟩, ⟨⟨1, 5⟩, ⟨2, 5⟩⟩, ⟨2, [(1, 5), (2, 5)], []⟩) := by
    rfl
  have hc2 : callWasmReuse (fun l : List Nat => ((l.length : Int), ([] : List Nat)))
      "f" [6] (max ([6] : List Nat).length 4)
      ⟨⟨1, 5⟩, ⟨2, 5⟩⟩ ⟨2, [(1, 5), (2, 5)], []⟩ =
      (.ok ⟨1, 2, 1, 4, 1, []⟩, ⟨⟨1, 5⟩, ⟨2, 5⟩⟩, ⟨2, [(1, 5), (2, 5)], []⟩) := by
    rfl
  have h := reuse_growth (fun l : List Nat => ((l.length : Int), ([] : List Nat)))
    "f" [1, 2, 3, 4, 5] [6] _ _ _ _ _ _ (by decide) hc1 hc2
  exact ⟨by decide, hc1, hc2, h.2.2.2.1 (by decide)⟩

/-- **C6, counterexample.** With blockSize 4 and chunks of 3, 5 and 2
bytes, the stream does not deliver two 4-byte segments followed by the
2-byte flush segment: the transform emits the two complete blocks as a
single 8-byte marshalled call (shown here with the marshalled transform
instantiated to the identity). -/
theorem blockStream_352_not_two_blocks :
    ¬ (blockStream 4 (fun x : List Nat => x) [[1, 2, 3], [4, 5, 6, 7, 8], [9, 10]] =
        [[1, 2, 3, 4], [5, 6, 7, 8], [9, 10]]) := by
  decide

/-- **C6, amended.** In block-size mode with blockSize 4, delivering
chunks of 3, 5 and 2 bytes emits exactly one 8-byte processed segment
during the stream — the two complete blocks go out as a single marshalled
call per the component design — and flushes the final 2-byte segment at
stream end. -/
theorem blockStream_352 (f : List Nat → α) (c1 c2 c3 : List Nat)
    (h1 : c1.length = 3) (h2 : c2.length = 5) (h3 : c3.length = 2) :
    blockStream 4 f [c1, c2, c3] = [f (c1 ++ c2), f c3] := by
  have e1 : blockTransform 4 f [] c1 = ([], c1) := by
    simp [blockTransform, h1]
  have hl : (c1 ++ c2).length = 8 := by simp [h1, h2]
  have e2 : blockTransform 4 f c1 c2 = ([f (c1 ++ c2)], []) := by
    simp only [blockTransform, hl]
    norm_num
    constructor
    · rw [show (8 : Nat) = (c1 ++ c2).length from hl.symm, List.take_length]
    · omega
  have e3 : blockTransform 4 f [] c3 = ([], c3) := by
    simp [blockTransform, h3]
  have hc3 : c3 ≠ [] := by
    intro h
    rw [h] at h3
    simp at h3
  simp only [blockStream, blockChunks, e1, e2, e3, List.nil_append,
    List.append_nil, if_neg hc3]
  simp

/-- **C6, witness.** The amended block-size behaviour evaluated at the
concrete chunks `[1,2,3]`, `[4,5,6,7,8]`, `[9,10]`. -/
theorem blockStream_352_witness :
    blockStream 4 (fun x : List Nat => x) [[1, 2, 3], [4, 5, 6, 7, 8], [9, 10]] =
      [[1, 2, 3, 4, 5, 6, 7, 8], [9, 10]] := by
  have := blockStream_352 (fun x : List Nat => x) [1, 2, 3] [4, 5, 6, 7, 8] [9, 10]
    (by decide) (by decide) (by decide)
  simpa using this

/-- **C7, counterexample.** The delimiter-mode chunk transform configured
with delimiter byte 10 does not perform CRLF/CR/LF-aware splitting: on the
bytes of `"line1\nline2\r\nline3\rlast"` (identity marshalled transform,
single chunk) the emitted segments are not
`["line1", "line2", "line3", "last"]` — the `\r` bytes stay inside the
segments. -/
theorem delim_crlf_counterexample :
    ¬ (delimStream 10 (fun x : List Nat => x) [crlfSample] =
        [line1B, line2B, line3B, lastB]) := by
  decide

/-- **C7, amended.** The delimiter-mode chunk transform splits on the
exact byte 10 only: streaming the bytes of `"line1\nline2\r\nline3\rlast"`
under any chunking emits the transform of `"line1"`, `"line2\r"` and
`"line3\rlast"` (the last via flush); the CRLF/CR/LF-aware splitting into
`["line1", "line2", "line3", "last"]` is produced by the offset-split
example's `getLines` helper, not by the chunk transform. -/
theorem delim_byte10_only (f : List Nat → α) (chunks : List (List Nat))
    (h : chunks.flatten = crlfSample) :
    delimStream 10 f chunks =
        [f line1B, f (line2B ++ [13]), f (line3B ++ 13 :: lastB)] ∧
      getLines crlfSample = [line1B, line2B, line3B, lastB] := by
  constructor
  · rw [(delimStream_characterization 10 f chunks).1, h]
    have hseg : delimSegmentsSpec 10 crlfSample =
        [line1B, line2B ++ [13], line3B ++ 13 :: lastB] := by decide
    rw [hseg]
    rfl
  · decide

/-- **C7, witness.** The amended claim evaluated at the single-chunk
streaming of the sample bytes with the identity transform. -/
theorem delim_byte10_only_witness :
    ([crlfSample] : List (List Nat)).flatten = crlfSample ∧
      delimStream 10 (fun x : List Nat => x) [crlfSample] =
        [line1B, line2B ++ [13], line3B ++ 13 :: lastB] := by
  refine ⟨by decide, ?_⟩
  exact (delim_byte10_only (fun x : List Nat => x) [crlfSample] (by decide)).1

/-- **C3, counterexample.** With backend `"baseline"` and a SIMD binary
that instantiates fine, `instantiateWithBackend` instantiates and returns
the SIMD variant — `"baseline"` is not recognized as a baseline-only
selection (only `"base"` is) and falls through to the auto path. -/
theorem backend_baseline_uses_simd :
    instantiateWithBackend (Except.ok [1]) (Except.ok [2])
        (fun b : List Nat => (Except.ok b : Except Unit (List Nat))) "baseline" =
      Except.ok ([1], "wasm-simd") := by
  rfl

/-- **C3, amended.** Backend `"simd"` runs exactly the SIMD attempt (a
single failure propagates); `"base"` runs exactly the baseline attempt;
`"auto"` — and any other unrecognized value, `"baseline"` included — tries
the SIMD attempt first, silently falling back to the baseline attempt on
any failure, so it succeeds whenever the SIMD attempt succeeds and fails
only if BOTH attempts fail. -/
theorem instantiateWithBackend_spec (gS gB : Except ε (List Nat))
    (inst : List Nat → Except ε ι) :
    instantiateWithBackend gS gB inst "simd" = simdAttempt gS inst ∧
    instantiateWithBackend gS gB inst "base" = baseAttempt gB inst ∧
    (instantiateWithBackend gS gB inst "auto" =
      match simdAttempt gS inst with
      | .ok r => .ok r
      | .error _ => baseAttempt gB inst) ∧
    (instantiateWithBackend gS gB inst "baseline" =
      match simdAttempt gS inst with
      | .ok r => .ok r
      | .error _ => baseAttempt gB inst) ∧
    (∀ r, simdAttempt gS inst = .ok r →
      instantiateWithBackend gS gB inst "auto" = .ok r) ∧
    exceptOk (instantiateWithBackend gS gB inst "auto") =
      (exceptOk (simdAttempt gS inst) || exceptOk (baseAttempt gB inst)) := by
  refine ⟨rfl, rfl, rfl, rfl, ?_, ?_⟩
  · intro r hr
    simp [instantiateWithBackend, hr]
  · cases hs : simdAttempt gS inst with
    | ok r => simp [instantiateWithBackend, hs, exceptOk]
    | error e =>
      cases hb : baseAttempt gB inst with
      | ok r => simp [instantiateWithBackend, hs, hb, exceptOk]
      | error e2 => simp [instantiateWithBackend, hs, hb, exceptOk]

/-- **C3, witness.** The auto path evaluated where the SIMD attempt
succeeds: the SIMD result is returned. -/
theorem instantiateWithBackend_spec_witness :
    simdAttempt (Except.ok [1])
        (fun b : List Nat => (Except.ok b : Except Unit (List Nat))) =
      Except.ok ([1], "wasm-simd") ∧
    instantiateWithBackend (Except.ok [1]) (Except.ok [2])
        (fun b : List Nat => (Except.ok b : Except Unit (List Nat))) "auto" =
      Except.ok ([1], "wasm-simd") := by
  refine ⟨by rfl, ?_⟩
  exact (instantiateWithBackend_spec (Except.ok [1]) (Except.ok [2])
    (fun b : List Nat => (Except.ok b : Except Unit (List Nat)))).2.2.2.2.1
    ([1], "wasm-simd") (by rfl)

/-- **C5.** `init` is idempotent per resolved backend value: calling again
with the same selection returns exactly the cached promise and state (so
two back-to-back calls — the single-threaded picture of two concurrent
calls — start exactly one instantiation, `count = 1` from the initial
state); calling with a selection that resolves to a different backend
starts a new instantiation (`count` becomes 2 and a different promise is
returned). -/
theorem init_idempotent (opts : Option String) (s : InitState) :
    (init opts (init opts s).2 = init opts s) ∧
    (init opts initialInitState).2.count = 1 ∧
    (init opts (init opts initialInitState).2).2.count = 1 ∧
    (∀ opts2 : Option String, resolveBackend opts2 ≠ resolveBackend opts →
      (init opts2 (init opts initialInitState).2).2.count = 2 ∧
      (init opts2 (init opts initialInitState).2).1 ≠
        (init opts initialInitState).1) := by
  refine ⟨?_, by simp [init, initialInitState], ?_, ?_⟩
  · cases hr : s.ready with
    | none => simp [init, hr]
    | some p =>
      by_cases hb : s.backendSel = some (resolveBackend opts)
      · simp [init, hr, hb]
      · simp [init, hr, hb]
  · simp [init, initialInitState]
  · intro opts2 hne
    have : some (resolveBackend opts) ≠ some (resolveBackend opts2) := by
      simpa using fun h => hne h.symm
    simp [init, initialInitState, this]

/-- **C5, witness.** Evaluated with backend `"simd"` then `"base"`: the
repeated `"simd"` call returns the cached result, and the `"base"` call
re-initializes (second instantiation). -/
theorem init_idempotent_witness :
    resolveBackend (some "base") ≠ resolveBackend (some "simd") ∧
    init (some "simd") (init (some "simd") initialInitState).2 =
      init (some "simd") initialInitState ∧
    (init (some "base") (init (some "simd") initialInitState).2).2.count = 2 := by
  have h := init_idempotent (some "simd") initialInitState
  exact ⟨by decide, h.1, (h.2.2.2 (some "base") (by decide)).1⟩

/-- **C8, counterexample.** A wrapped call whose descriptor declares the
unrecognized return kind `"q64"` does NOT fail with an
`UnsupportedReturnType` error: the call succeeds and returns `null`
(`decodeReturn` hits its `default: return null` branch, and no such error
exists in the code). -/
theorem unknown_kind_returns_null :
    (wrappedScalarCall (fun _ : List Nat => ((0 : Int), ([] : List Nat)))
        "f" "q64" [1] ⟨0, [], []⟩).1 = Except.ok none := by
  rfl

/-- **C8, amended.** For every wrapped call whose descriptor declares a
return kind the codec does not recognize, if the foreign call itself
succeeds the wrapped call succeeds with result `null` — `scalarSize`
treats the unknown kind as 0 (so the output capacity falls back to 4) and
`decodeReturn` returns `null`; no error is raised. -/
theorem unknown_kind_no_error (wasmFn : List Nat → Int × List Nat)
    (abi retType : String) (input : List Nat) (s : AllocState)
    (hk : retType ∉ knownKinds) (hw : 0 ≤ (wasmFn input).1) :
    (wrappedScalarCall wasmFn abi retType input s).1 = Except.ok none := by
  simp only [knownKinds, List.mem_cons, List.not_mem_nil, or_false, not_or] at hk
  obtain ⟨h1, h2, h3, h4, h5, h6, h7, h8, h9, h10, h11⟩ := hk
  have hneg : ¬ (wasmFn input).1 < 0 := by omega
  simp [wrappedScalarCall, callWasmFresh, hneg, decodeReturn,
    h1, h2, h3, h4, h5, h6, h7, h8, h9, h10, h11]

/-- **C8, witness.** The unknown-kind behaviour evaluated at kind
`"q64"`, a foreign function returning 0. -/
theorem unknown_kind_no_error_witness :
    "q64" ∉ knownKinds ∧
    (0 : Int) ≤ ((fun _ : List Nat => ((0 : Int), ([] : List Nat))) [2, 3]).1 ∧
    (wrappedScalarCall (fun _ : List Nat => ((0 : Int), ([] : List Nat)))
        "g" "q64" [2, 3] ⟨0, [], []⟩).1 = Except.ok none := by
  refine ⟨by decide, by decide, ?_⟩
  exact unknown_kind_no_error (fun _ : List Nat => ((0 : Int), ([] : List Nat)))
    "g" "q64" [2, 3] ⟨0, [], []⟩ (by decide) (by decide)

/-- **C9, counterexample.** When the foreign allocator signals failure by
returning 0, the generated `alloc` does not fail with `OutOfMemory` and
does not propagate an error: it returns the unusable pointer value 0
unchanged (no such check exists in the code). -/
theorem alloc_zero_passthrough :
    alloc (fun _ : Nat => (Except.ok 0 : Except Unit Nat)) 16 = Except.ok 0 := by
  rfl

/-- **C9, amended.** Of the two ABI failure signals, only a trap is
surfaced: a foreign allocator trap propagates to the caller of `alloc`,
while a returned 0 is passed through as pointer 0 with no `OutOfMemory`
detection. -/
theorem alloc_spec (foreignAlloc : Nat → Except ε Nat) (len : Nat) :
    (∀ e, foreignAlloc len = .error e → alloc foreignAlloc len = .error e) ∧
    (foreignAlloc len = .ok 0 → alloc foreignAlloc len = .ok 0) := by
  constructor
  · intro e he
    simp [alloc, he]
  · intro h0
    simp [alloc, h0]

/-- **C9, witness.** Both failure signals evaluated concretely: a trap
propagates, a zero return is passed through. -/
theorem alloc_spec_witness :
    ((fun _ : Nat => (Except.error () : Except Unit Nat)) 5 = Except.error ()) ∧
    alloc (fun _ : Nat => (Except.error () : Except Unit Nat)) 5 =
      Except.error () ∧
    ((fun _ : Nat => (Except.ok 0 : Except Unit Nat)) 7 = Except.ok 0) ∧
    alloc (fun _ : Nat => (Except.ok 0 : Except Unit Nat)) 7 = Except.ok 0 := by
  refine ⟨rfl, ?_, rfl, ?_⟩
  · exact (alloc_spec (fun _ : Nat => (Except.error () : Except Unit Nat)) 5).1
      () rfl
  · exact (alloc_spec (fun _ : Nat => (Except.ok 0 : Except Unit Nat)) 7).2 rfl

/-- **C10.** In the generated runtime, whenever the view `_memU8` is null
— in particular before `setInstance` has ever been called — `memoryU8()`
returns null rather than raising an error or dereferencing `_inst`: the
freshness check is guarded by `_memU8 &&`, so the call is total and leaves
the state untouched. -/
theorem memoryU8_uninitialized (s : RegState) (h : s.memU8 = none) :
    memoryU8 s = Except.ok (none, s) := by
  simp [memoryU8, h]

/-- **C10, witness.** `memoryU8()` on the pre-initialization state. -/
theorem memoryU8_uninitialized_witness :
    initialRegState.memU8 = none ∧
      memoryU8 initialRegState = Except.ok (none, initialRegState) :=
  ⟨rfl, memoryU8_uninitialized initialRegState rfl⟩

end WasmBindgenLite
